import Mathlib

/-!
Verification of the doppler-cloud-syncs reconciliation engine and runtime
secret cache, as a shallow embedding of the TypeScript sources.

Conventions of the embedding:
* A SecretMap (TS Record from string to string) is an association list
  `List (String × String)`; key lookup is `List.lookup`.
* Calls to external vendor CLIs (wrangler, firebase, doppler) are modelled
  by oracle arguments of type `Except String _` carrying either the parsed
  output of the call or the thrown error message.
* TS functions that swallow every exception (catch returning a default)
  become total Lean functions of the oracle.
-/

set_option autoImplicit false

namespace DCS

/-- SecretMap: mapping from secret name to secret value,
as in `src/packages/runtime/src/types` and the CLI clients. -/
abbrev SecretMap := List (String × String)

/-- Object.keys of a SecretMap. -/
def keysOf (m : SecretMap) : List String := m.map Prod.fst

/-- JS String.prototype.toLowerCase, characterwise over the ASCII range of
the secret names handled here. -/
def toLowerCase (s : String) : String := ⟨s.data.map Char.toLower⟩

/-- JS String.prototype.toUpperCase, characterwise over the ASCII range of
the secret names handled here. -/
def toUpperCase (s : String) : String := ⟨s.data.map Char.toUpper⟩

/-- Key lookup in a SecretMap (TS bracket access on a record). -/
def lookupSM (m : SecretMap) (k : String) : Option String := List.lookup k m

/-- DiffResult shape returned by CloudflareClient.diff
(value-opaque platform: toAdd / toRemove / existing). -/
structure CfDiff where
  toAdd : List String
  toRemove : List String
  existing : List String
deriving DecidableEq, Repr

/-- DiffResult shape returned by FirebaseClient.diff
(value-comparable platform: toAdd / toRemove / toUpdate). -/
structure FbDiff where
  toAdd : List String
  toRemove : List String
  toUpdate : List String
deriving DecidableEq, Repr

namespace CloudflareClient

/-- CloudflareClient.listSecrets (src/unnamed/part_009 lines 66 to 75):
runs `wrangler secret list`; the whole call is wrapped in try/catch and
ANY failure (subprocess error, JSON parse error) returns the empty list.
The oracle `exec` is the outcome of the wrangler invocation, carrying the
parsed list of secret names on success. -/
def listSecrets (exec : Except String (List String)) : List String :=
  match exec with
  | .ok names => names
  | .error _ => []

/-- CloudflareClient.diff (src/unnamed/part_009 lines 99 to 112):
pure key-name comparison of the canonical map against listSecrets. -/
def diff (exec : Except String (List String)) (dopplerSecrets : SecretMap) : CfDiff :=
  let currentSecrets := listSecrets exec
  let dopplerKeys := keysOf dopplerSecrets
  { toAdd := dopplerKeys.filter (fun k => decide (k ∉ currentSecrets))
    toRemove := currentSecrets.filter (fun k => decide (k ∉ dopplerKeys))
    existing := dopplerKeys.filter (fun k => decide (k ∈ currentSecrets)) }

/-- Effect of one `wrangler secret bulk` call on the secret-name store of a
worker. Modelled from the spec: the wrangler CLI is not part of this
repository; its documented bulk operation upserts every key of the payload
file and deletes nothing. -/
def bulkUpsert (current : List String) (secrets : SecretMap) : List String :=
  current ++ (keysOf secrets).filter (fun k => decide (k ∉ current))

/-- CloudflareClient.syncFromDoppler (src/unnamed/part_009 lines 77 to 92):
writes the canonical map with one `wrangler secret bulk` call. Returns the
outcome of that call and the resulting platform secret-name state; on
failure the store is unchanged. The method issues no delete calls. -/
def syncRun (bulkExec : Except String Unit) (current : List String)
    (secrets : SecretMap) : Except String Unit × List String :=
  match bulkExec with
  | .ok _ => (.ok (), bulkUpsert current secrets)
  | .error e => (.error e, current)

end CloudflareClient

namespace FirebaseClient

/-- FirebaseClient.getConfig (src/packages/cli/src/platforms/firebase.ts
lines 17 to 25): runs `firebase functions:config:get` inside try/catch and
returns the empty object on ANY failure. The oracle carries the doppler
namespace of the parsed config (diff reads `current.doppler || empty`). -/
def getConfig (exec : Except String SecretMap) : SecretMap :=
  match exec with
  | .ok cfg => cfg
  | .error _ => []

/-- FirebaseClient.diff (src/packages/cli/src/platforms/firebase.ts
lines 52 to 71): canonical keys are lowercased to the platform naming;
toUpdate keeps the co-present keys whose current value differs from the
canonical value looked up under the uppercased key. -/
def diff (exec : Except String SecretMap) (dopplerSecrets : SecretMap) : FbDiff :=
  let currentDoppler := getConfig exec
  let dopplerKeys := (keysOf dopplerSecrets).map toLowerCase
  let currentKeys := keysOf currentDoppler
  { toAdd := dopplerKeys.filter (fun k => decide (k ∉ currentKeys))
    toRemove := currentKeys.filter (fun k => decide (k ∉ dopplerKeys))
    toUpdate := dopplerKeys.filter (fun k =>
      decide (k ∈ currentKeys) &&
      decide (lookupSM currentDoppler k ≠ lookupSM dopplerSecrets (toUpperCase k))) }

/-- Record assignment on the doppler namespace: overwrite the value when the
key is present, append otherwise. -/
def setPair (m : SecretMap) (k v : String) : SecretMap :=
  if (lookupSM m k).isSome then
    m.map (fun p => if p.1 = k then (k, v) else p)
  else
    m ++ [(k, v)]

/-- FirebaseClient.setConfig (firebase.ts lines 27 to 32): sets the pair
`doppler.<lowercased key>=<value>` for every canonical entry, in order. -/
def setConfig (m : SecretMap) (secrets : SecretMap) : SecretMap :=
  secrets.foldl (fun acc p => setPair acc (toLowerCase p.1) p.2) m

/-- FirebaseClient.syncFromDoppler (firebase.ts lines 40 to 50): first
`functions:config:unset doppler` with every error swallowed (on success the
namespace is cleared, on failure it is untouched), then
`functions:config:set` of all pairs (errors propagate). Returns the outcome
and the resulting doppler-namespace state. -/
def syncRun (unsetExec setExec : Except String Unit) (current secrets : SecretMap) :
    Except String Unit × SecretMap :=
  let afterUnset : SecretMap :=
    match unsetExec with
    | .ok _ => []
    | .error _ => current
  match setExec with
  | .ok _ => (.ok (), setConfig afterUnset secrets)
  | .error e => (.error e, afterUnset)

end FirebaseClient

/-! The sync command engine, src/unnamed/part_006 (registerSyncCommand and
syncPlatform). -/

/-- Platform identifiers handled by the sync switch. -/
inductive Platform where
  | firebase
  | cloudflare
  | other (name : String)
deriving DecidableEq, Repr

/-- SyncResult, src/unnamed/part_011: one entry per platform per run. -/
structure SyncResult where
  platform : Platform
  success : Bool
  added : Nat
  updated : Nat
  removed : Nat
  error : Option String
deriving DecidableEq, Repr

/-- A configured FirebaseClient together with the behaviour of its external
CLI calls for this run: current doppler-namespace state, whether
`functions:config:get` succeeds, and the outcomes of unset and set. -/
structure FbConn where
  state : SecretMap
  getOk : Bool
  unsetExec : Except String Unit
  setExec : Except String Unit

/-- Result of the `functions:config:get` call of this connection. -/
def FbConn.execGet (c : FbConn) : Except String SecretMap :=
  if c.getOk then .ok c.state else .error "firebase config get failed"

/-- A configured CloudflareClient together with the behaviour of its
external CLI calls for this run. -/
structure CfConn where
  state : List String
  listOk : Bool
  bulkExec : Except String Unit

/-- Result of the `wrangler secret list` call of this connection. -/
def CfConn.execList (c : CfConn) : Except String (List String) :=
  if c.listOk then .ok c.state else .error "wrangler secret list failed"

/-- The record returned by createPlatformClients (src/unnamed/part_011
lines 32 to 52): an optional firebase client and an optional cloudflare
client, in that insertion order. -/
structure Clients where
  firebase : Option FbConn
  cloudflare : Option CfConn

/-- Outcome of one syncPlatform call: the SyncResult pushed onto the result
list, the platform states afterwards, and whether diff respectively apply
(syncFromDoppler) were invoked on a platform client. -/
structure StepOutcome where
  result : SyncResult
  clients : Clients
  diffInvoked : Bool
  applyInvoked : Bool

/-- syncPlatform (src/unnamed/part_006 lines 71 to 146): per-platform
switch; result starts with success false and zero counts; unconfigured
platforms and unknown platforms only set the error field; otherwise diff
counts are recorded, apply runs unless dryRun, and any error thrown by
apply lands in the error field of this SyncResult only. -/
def syncPlatform (p : Platform) (clients : Clients) (secrets : SecretMap)
    (dryRun : Bool) : StepOutcome :=
  match p with
  | .firebase =>
    match clients.firebase with
    | none =>
      { result := ⟨p, false, 0, 0, 0, some "Firebase not configured"⟩
        clients := clients, diffInvoked := false, applyInvoked := false }
    | some c =>
      let d := FirebaseClient.diff c.execGet secrets
      let base : SyncResult :=
        ⟨p, false, d.toAdd.length, d.toUpdate.length, d.toRemove.length, none⟩
      if dryRun then
        { result := { base with success := true }
          clients := clients, diffInvoked := true, applyInvoked := false }
      else
        match FirebaseClient.syncRun c.unsetExec c.setExec c.state secrets with
        | (.ok _, st) =>
          { result := { base with success := true }
            clients := { clients with firebase := some { c with state := st } }
            diffInvoked := true, applyInvoked := true }
        | (.error e, st) =>
          { result := { base with error := some e }
            clients := { clients with firebase := some { c with state := st } }
            diffInvoked := true, applyInvoked := true }
  | .cloudflare =>
    match clients.cloudflare with
    | none =>
      { result := ⟨p, false, 0, 0, 0, some "Cloudflare not configured"⟩
        clients := clients, diffInvoked := false, applyInvoked := false }
    | some c =>
      let d := CloudflareClient.diff c.execList secrets
      let base : SyncResult :=
        ⟨p, false, d.toAdd.length, d.existing.length, d.toRemove.length, none⟩
      if dryRun then
        { result := { base with success := true }
          clients := clients, diffInvoked := true, applyInvoked := false }
      else
        match CloudflareClient.syncRun c.bulkExec c.state secrets with
        | (.ok _, st) =>
          { result := { base with success := true }
            clients := { clients with cloudflare := some { c with state := st } }
            diffInvoked := true, applyInvoked := true }
        | (.error e, st) =>
          { result := { base with error := some e }
            clients := { clients with cloudflare := some { c with state := st } }
            diffInvoked := true, applyInvoked := true }
  | .other name =>
    { result := ⟨p, false, 0, 0, 0, some ("Platform " ++ name ++ " not yet supported")⟩
      clients := clients, diffInvoked := false, applyInvoked := false }

/-- The platformsToSync list (part_006 lines 42 to 44): the single named
platform when a filter argument was given, otherwise the keys of the
clients record in insertion order (firebase, then cloudflare). -/
def platformsToSync (filter : Option Platform) (clients : Clients) : List Platform :=
  match filter with
  | some p => [p]
  | none =>
    (match clients.firebase with | some _ => [Platform.firebase] | none => []) ++
    (match clients.cloudflare with | some _ => [Platform.cloudflare] | none => [])

/-- The per-platform loop of the sync action (part_006 lines 45 to 48):
one syncPlatform call per listed platform, results in order, states
threaded, diff and apply invocations counted. -/
def runPlatforms (ps : List Platform) (clients : Clients) (secrets : SecretMap)
    (dryRun : Bool) : List SyncResult × Clients × Nat × Nat :=
  match ps with
  | [] => ([], clients, 0, 0)
  | p :: rest =>
    let s := syncPlatform p clients secrets dryRun
    let t := runPlatforms rest s.clients secrets dryRun
    (s.result :: t.1, t.2.1,
      (if s.diffInvoked then 1 else 0) + t.2.2.1,
      (if s.applyInvoked then 1 else 0) + t.2.2.2)

/-- The body of the sync action (part_006 lines 29 to 48): fetch the
canonical map once from Doppler; a fetch failure aborts the run before any
platform is processed; otherwise process every listed platform. Returns
the run outcome, the platform states afterwards, and the number of diff
and apply invocations performed. -/
def runSyncCommand (fetch : Except String SecretMap) (filter : Option Platform)
    (clients : Clients) (dryRun : Bool) :
    Except String (List SyncResult) × Clients × Nat × Nat :=
  match fetch with
  | .error e => (.error e, clients, 0, 0)
  | .ok secrets =>
    let t := runPlatforms (platformsToSync filter clients) clients secrets dryRun
    (.ok t.1, t.2)

/-! The runtime secret cache: src/packages/runtime/src/core.ts, the
SecretsCache class, and src/packages/runtime/src/fetcher.ts. Time is the
explicit millisecond counter `now` standing for Date.now(). -/

/-- CacheEntry, src/packages/runtime/src/types. -/
structure CacheEntry where
  secrets : SecretMap
  expiresAt : Nat
  refreshing : Bool
deriving DecidableEq, Repr

/-- The internal Map of the SecretsCache singleton. -/
abbrev CacheState := List (String × CacheEntry)

/-- SecretsCache.getKey: the string `project:config`. -/
def cacheKey (project config : String) : String := project ++ ":" ++ config

/-- SecretsCache.get: the entry for the key, unless absent or strictly past
its expiresAt timestamp. -/
def cacheGet (st : CacheState) (now : Nat) (project config : String) : Option SecretMap :=
  match List.lookup (cacheKey project config) st with
  | none => none
  | some e => if e.expiresAt < now then none else some e.secrets

/-- SecretsCache.set: store the secrets under the key with
expiresAt = now + ttl seconds and refreshing = false, replacing any entry. -/
def cacheSet (st : CacheState) (project config : String) (secrets : SecretMap)
    (ttl : Nat) (now : Nat) : CacheState :=
  (cacheKey project config, ⟨secrets, now + ttl * 1000, false⟩) ::
    st.filter (fun e => decide (e.1 ≠ cacheKey project config))

/-- SecretsCache.getStale: the stored secrets regardless of expiry. -/
def cacheGetStale (st : CacheState) (project config : String) : Option SecretMap :=
  (List.lookup (cacheKey project config) st).map (fun e => e.secrets)

/-- SecretsCache.isRefreshing: the refreshing flag of the entry, false when
no entry exists. -/
def cacheIsRefreshing (st : CacheState) (project config : String) : Bool :=
  ((List.lookup (cacheKey project config) st).map (fun e => e.refreshing)).getD false

/-- SecretsCache.setRefreshing: mutate the refreshing flag of the entry IF
an entry exists; a no-op otherwise (the TS body is guarded by `if (entry)`). -/
def cacheSetRefreshing (st : CacheState) (project config : String) (b : Bool) : CacheState :=
  st.map (fun e =>
    if e.1 = cacheKey project config then (e.1, { e.2 with refreshing := b }) else e)

/-- The regex test of fetchFromEnv for unspecified keys: upper-snake names,
`^[A-Z][A-Z0-9_]*$`. -/
def isSecretKeyName (s : String) : Bool :=
  match s.toList with
  | [] => false
  | c :: rest => c.isUpper && rest.all (fun d => d.isUpper || d.isDigit || d = '_')

/-- fetchFromEnv (src/packages/runtime/src/fetcher.ts lines 49 to 71):
with a non-empty keys list, pick exactly the requested keys present in the
process environment; otherwise every upper-snake environment variable. -/
def fetchFromEnv (env : SecretMap) (keys : List String) : SecretMap :=
  if keys.isEmpty then
    env.filter (fun p => isSecretKeyName p.1)
  else
    keys.filterMap (fun k => (lookupSM env k).map (fun v => (k, v)))

/-- filterKeys (core.ts lines 130 to 138): keep exactly the requested keys
that are present in the given map, bound to the values of that map. -/
def filterKeys (secrets : SecretMap) (keys : List String) : SecretMap :=
  keys.filterMap (fun k => (lookupSM secrets k).map (fun v => (k, v)))

/-- The keys-filtering step of getSecrets: applied only when a non-empty
keys list was requested. -/
def maybeFilter (keys : List String) (secrets : SecretMap) : SecretMap :=
  if keys.isEmpty then secrets else filterKeys secrets keys

/-- The SecretsConfig of a getSecrets call after the defaulting done at the
top of core.ts: sourceEnv is `source == env`, ttlOpt the raw cache.ttl
option (defaulted to 300 at use sites), fallbackEnv is `fallback == env`,
project and configName the resolved cache-key parts. -/
structure RtConfig where
  sourceEnv : Bool
  ttlOpt : Option Nat
  keys : List String
  project : String
  configName : String
  fallbackEnv : Bool

/-- getSecrets (core.ts lines 28 to 90). The oracle fetchResult is the
outcome of fetchFromDoppler, env the process environment. Returns the
call result, the cache afterwards, and whether a provider fetch was
attempted. Resolution order: env source; fresh cache hit (only when
ttl > 0); provider fetch (cached when ttl > 0); stale cache fallback;
env fallback; propagate the fetch error. -/
def getSecretsM (cfg : RtConfig) (fetchResult : Except String SecretMap)
    (env : SecretMap) (st : CacheState) (now : Nat) :
    Except String SecretMap × CacheState × Bool :=
  if cfg.sourceEnv then (.ok (fetchFromEnv env cfg.keys), st, false)
  else
    let ttl := cfg.ttlOpt.getD 300
    let hit := if 0 < ttl then cacheGet st now cfg.project cfg.configName else none
    match hit with
    | some cached => (.ok (maybeFilter cfg.keys cached), st, false)
    | none =>
      match fetchResult with
      | .ok secrets =>
        let st1 := if 0 < ttl then cacheSet st cfg.project cfg.configName secrets ttl now else st
        (.ok (maybeFilter cfg.keys secrets), st1, true)
      | .error e =>
        match cacheGetStale st cfg.project cfg.configName with
        | some stale => (.ok (maybeFilter cfg.keys stale), st, true)
        | none =>
          if cfg.fallbackEnv then (.ok (fetchFromEnv env cfg.keys), st, true)
          else (.error e, st, true)

/-- The synchronous prefix of refreshSecretsBackground (core.ts lines 96 to
108): check isRefreshing for the key, bail out without fetching when a
refresh is already in flight, otherwise mark refreshing and start the
fetch. Returns the cache state and whether a provider fetch was started. -/
def refreshBegin (st : CacheState) (project config : String) : CacheState × Bool :=
  if cacheIsRefreshing st project config then (st, false)
  else (cacheSetRefreshing st project config true, true)

/-- The completion of refreshSecretsBackground (core.ts lines 109 to 118):
on fetch success store the secrets, on failure leave the entry alone; in
both cases finally clear the refreshing flag. -/
def refreshFinish (st : CacheState) (project config : String)
    (outcome : Except String SecretMap) (ttl now : Nat) : CacheState :=
  match outcome with
  | .ok secrets => cacheSetRefreshing (cacheSet st project config secrets ttl now) project config false
  | .error _ => cacheSetRefreshing st project config false

/-! Helper lemmas. -/

/-- The user-visible count fields of one SyncResult: platform and the
added / updated / removed cardinalities. -/
def countsOf (r : SyncResult) : Platform × Nat × Nat × Nat :=
  (r.platform, r.added, r.updated, r.removed)

lemma syncPlatform_platform (p : Platform) (cl : Clients) (s : SecretMap) (d : Bool) :
    (syncPlatform p cl s d).result.platform = p := by
  cases p with
  | firebase =>
    cases hc : cl.firebase with
    | none => simp [syncPlatform, hc]
    | some c =>
      cases d with
      | true => simp [syncPlatform, hc]
      | false =>
        rcases hr : FirebaseClient.syncRun c.unsetExec c.setExec c.state s with ⟨o, st⟩
        cases o <;> simp [syncPlatform, hc, hr]
  | cloudflare =>
    cases hc : cl.cloudflare with
    | none => simp [syncPlatform, hc]
    | some c =>
      cases d with
      | true => simp [syncPlatform, hc]
      | false =>
        rcases hr : CloudflareClient.syncRun c.bulkExec c.state s with ⟨o, st⟩
        cases o <;> simp [syncPlatform, hc, hr]
  | other n => simp [syncPlatform]

lemma syncPlatform_dry (p : Platform) (cl : Clients) (s : SecretMap) :
    (syncPlatform p cl s true).applyInvoked = false ∧
    (syncPlatform p cl s true).clients = cl := by
  cases p with
  | firebase => cases hc : cl.firebase <;> simp [syncPlatform, hc]
  | cloudflare => cases hc : cl.cloudflare <;> simp [syncPlatform, hc]
  | other n => simp [syncPlatform]

lemma syncPlatform_counts (p : Platform) (cl : Clients) (s : SecretMap) :
    countsOf (syncPlatform p cl s false).result = countsOf (syncPlatform p cl s true).result := by
  cases p with
  | firebase =>
    cases hc : cl.firebase with
    | none => simp [syncPlatform, hc]
    | some c =>
      rcases hr : FirebaseClient.syncRun c.unsetExec c.setExec c.state s with ⟨o, st⟩
      cases o <;> simp [syncPlatform, hc, hr, countsOf]
  | cloudflare =>
    cases hc : cl.cloudflare with
    | none => simp [syncPlatform, hc]
    | some c =>
      rcases hr : CloudflareClient.syncRun c.bulkExec c.state s with ⟨o, st⟩
      cases o <;> simp [syncPlatform, hc, hr, countsOf]
  | other n => simp [syncPlatform]

lemma syncPlatform_fb_cf (cl : Clients) (s : SecretMap) (d : Bool) :
    (syncPlatform .firebase cl s d).clients.cloudflare = cl.cloudflare := by
  cases hc : cl.firebase with
  | none => simp [syncPlatform, hc]
  | some c =>
    cases d with
    | true => simp [syncPlatform, hc]
    | false =>
      rcases hr : FirebaseClient.syncRun c.unsetExec c.setExec c.state s with ⟨o, st⟩
      cases o <;> simp [syncPlatform, hc, hr]

lemma syncPlatform_cf_fb (cl : Clients) (s : SecretMap) (d : Bool) :
    (syncPlatform .cloudflare cl s d).clients.firebase = cl.firebase := by
  cases hc : cl.cloudflare with
  | none => simp [syncPlatform, hc]
  | some c =>
    cases d with
    | true => simp [syncPlatform, hc]
    | false =>
      rcases hr : CloudflareClient.syncRun c.bulkExec c.state s with ⟨o, st⟩
      cases o <;> simp [syncPlatform, hc, hr]

lemma syncPlatform_other_clients (n : String) (cl : Clients) (s : SecretMap) (d : Bool) :
    (syncPlatform (.other n) cl s d).clients = cl := by
  simp [syncPlatform]

lemma syncPlatform_fb_congr (cl₁ cl₂ : Clients) (s : SecretMap) (d : Bool)
    (h : cl₁.firebase = cl₂.firebase) :
    (syncPlatform .firebase cl₁ s d).result = (syncPlatform .firebase cl₂ s d).result ∧
    (syncPlatform .firebase cl₁ s d).clients.firebase =
      (syncPlatform .firebase cl₂ s d).clients.firebase := by
  cases hc₂ : cl₂.firebase with
  | none =>
    have hc₁ : cl₁.firebase = none := h.trans hc₂
    simp [syncPlatform, hc₁, hc₂]
  | some c =>
    have hc₁ : cl₁.firebase = some c := h.trans hc₂
    cases d with
    | true => simp [syncPlatform, hc₁, hc₂]
    | false =>
      rcases hr : FirebaseClient.syncRun c.unsetExec c.setExec c.state s with ⟨o, st⟩
      cases o <;> simp [syncPlatform, hc₁, hc₂, hr]

lemma syncPlatform_cf_congr (cl₁ cl₂ : Clients) (s : SecretMap) (d : Bool)
    (h : cl₁.cloudflare = cl₂.cloudflare) :
    (syncPlatform .cloudflare cl₁ s d).result = (syncPlatform .cloudflare cl₂ s d).result ∧
    (syncPlatform .cloudflare cl₁ s d).clients.cloudflare =
      (syncPlatform .cloudflare cl₂ s d).clients.cloudflare := by
  cases hc₂ : cl₂.cloudflare with
  | none =>
    have hc₁ : cl₁.cloudflare = none := h.trans hc₂
    simp [syncPlatform, hc₁, hc₂]
  | some c =>
    have hc₁ : cl₁.cloudflare = some c := h.trans hc₂
    cases d with
    | true => simp [syncPlatform, hc₁, hc₂]
    | false =>
      rcases hr : CloudflareClient.syncRun c.bulkExec c.state s with ⟨o, st⟩
      cases o <;> simp [syncPlatform, hc₁, hc₂, hr]

lemma syncPlatform_fb_error (cl : Clients) (s : SecretMap) (f : FbConn) (m : String)
    (hc : cl.firebase = some f) (hm : f.setExec = .error m) :
    (syncPlatform .firebase cl s false).result.success = false ∧
    (syncPlatform .firebase cl s false).result.error = some m ∧
    ∃ f2, (syncPlatform .firebase cl s false).clients.firebase = some f2 ∧
      f2.setExec = .error m := by
  refine ⟨?_, ?_, ?_⟩ <;>
    simp [syncPlatform, hc, FirebaseClient.syncRun, hm]

lemma runPlatforms_platform_map (ps : List Platform) (cl : Clients) (s : SecretMap) (d : Bool) :
    (runPlatforms ps cl s d).1.map (fun r => r.platform) = ps := by
  induction ps generalizing cl with
  | nil => simp [runPlatforms]
  | cons p rest ih => simp [runPlatforms, syncPlatform_platform, ih]

lemma runPlatforms_fb_error (ps : List Platform) (cl : Clients) (s : SecretMap)
    (m : String) (hinv : ∃ f, cl.firebase = some f ∧ f.setExec = .error m) :
    ∀ r ∈ (runPlatforms ps cl s false).1, r.platform = .firebase →
      r.success = false ∧ r.error = some m := by
  induction ps generalizing cl with
  | nil => simp [runPlatforms]
  | cons p rest ih =>
    obtain ⟨f, hc, hm⟩ := hinv
    intro r hr hp
    simp only [runPlatforms, List.mem_cons] at hr
    rcases hr with hr | hr
    · subst hr
      cases p with
      | firebase =>
        obtain ⟨h1, h2, _⟩ := syncPlatform_fb_error cl s f m hc hm
        exact ⟨h1, h2⟩
      | cloudflare =>
        rw [syncPlatform_platform] at hp
        exact absurd hp (by simp)
      | other n =>
        rw [syncPlatform_platform] at hp
        exact absurd hp (by simp)
    · cases p with
      | firebase =>
        obtain ⟨_, _, f2, hf2, hf2m⟩ := syncPlatform_fb_error cl s f m hc hm
        exact ih (syncPlatform .firebase cl s false).clients ⟨f2, hf2, hf2m⟩ r hr hp
      | cloudflare =>
        refine ih (syncPlatform .cloudflare cl s false).clients ⟨f, ?_, hm⟩ r hr hp
        rw [syncPlatform_cf_fb, hc]
      | other n =>
        refine ih (syncPlatform (.other n) cl s false).clients ⟨f, ?_, hm⟩ r hr hp
        rw [syncPlatform_other_clients, hc]

lemma runPlatforms_fb_independent (ps : List Platform) (cl₁ cl₂ : Clients)
    (s : SecretMap) (d : Bool) (h : cl₁.cloudflare = cl₂.cloudflare) :
    (runPlatforms ps cl₁ s d).1.filter (fun r => decide (r.platform ≠ .firebase)) =
    (runPlatforms ps cl₂ s d).1.filter (fun r => decide (r.platform ≠ .firebase)) := by
  induction ps generalizing cl₁ cl₂ with
  | nil => simp [runPlatforms]
  | cons p rest ih =>
    cases p with
    | firebase =>
      have h1 : (syncPlatform .firebase cl₁ s d).result.platform = .firebase :=
        syncPlatform_platform _ _ _ _
      have h2 : (syncPlatform .firebase cl₂ s d).result.platform = .firebase :=
        syncPlatform_platform _ _ _ _
      simp only [runPlatforms, List.filter_cons, h1, h2]
      simp only [ne_eq, not_true_eq_false, decide_False]
      exact ih _ _ (by rw [syncPlatform_fb_cf, syncPlatform_fb_cf, h])
    | cloudflare =>
      obtain ⟨hres, hcf⟩ := syncPlatform_cf_congr cl₁ cl₂ s d h
      simp only [runPlatforms, List.filter_cons, hres]
      have ht := ih (syncPlatform .cloudflare cl₁ s d).clients
        (syncPlatform .cloudflare cl₂ s d).clients hcf
      rw [ht]
    | other n =>
      simp only [runPlatforms, List.filter_cons, syncPlatform_other_clients]
      have hres : (syncPlatform (.other n) cl₁ s d).result =
          (syncPlatform (.other n) cl₂ s d).result := by simp [syncPlatform]
      rw [hres, ih cl₁ cl₂ h]

lemma syncPlatform_cf_error (cl : Clients) (s : SecretMap) (c : CfConn) (m : String)
    (hc : cl.cloudflare = some c) (hm : c.bulkExec = .error m) :
    (syncPlatform .cloudflare cl s false).result.success = false ∧
    (syncPlatform .cloudflare cl s false).result.error = some m ∧
    ∃ c2, (syncPlatform .cloudflare cl s false).clients.cloudflare = some c2 ∧
      c2.bulkExec = .error m := by
  refine ⟨?_, ?_, ?_⟩ <;>
    simp [syncPlatform, hc, CloudflareClient.syncRun, hm]

lemma runPlatforms_cf_error (ps : List Platform) (cl : Clients) (s : SecretMap)
    (m : String) (hinv : ∃ c, cl.cloudflare = some c ∧ c.bulkExec = .error m) :
    ∀ r ∈ (runPlatforms ps cl s false).1, r.platform = .cloudflare →
      r.success = false ∧ r.error = some m := by
  induction ps generalizing cl with
  | nil => simp [runPlatforms]
  | cons p rest ih =>
    obtain ⟨c, hc, hm⟩ := hinv
    intro r hr hp
    simp only [runPlatforms, List.mem_cons] at hr
    rcases hr with hr | hr
    · subst hr
      cases p with
      | cloudflare =>
        obtain ⟨h1, h2, _⟩ := syncPlatform_cf_error cl s c m hc hm
        exact ⟨h1, h2⟩
      | firebase =>
        rw [syncPlatform_platform] at hp
        exact absurd hp (by simp)
      | other n =>
        rw [syncPlatform_platform] at hp
        exact absurd hp (by simp)
    · cases p with
      | cloudflare =>
        obtain ⟨_, _, c2, hc2, hc2m⟩ := syncPlatform_cf_error cl s c m hc hm
        exact ih (syncPlatform .cloudflare cl s false).clients ⟨c2, hc2, hc2m⟩ r hr hp
      | firebase =>
        refine ih (syncPlatform .firebase cl s false).clients ⟨c, ?_, hm⟩ r hr hp
        rw [syncPlatform_fb_cf, hc]
      | other n =>
        refine ih (syncPlatform (.other n) cl s false).clients ⟨c, ?_, hm⟩ r hr hp
        rw [syncPlatform_other_clients, hc]

lemma runPlatforms_cf_independent (ps : List Platform) (cl₁ cl₂ : Clients)
    (s : SecretMap) (d : Bool) (h : cl₁.firebase = cl₂.firebase) :
    (runPlatforms ps cl₁ s d).1.filter (fun r => decide (r.platform ≠ .cloudflare)) =
    (runPlatforms ps cl₂ s d).1.filter (fun r => decide (r.platform ≠ .cloudflare)) := by
  induction ps generalizing cl₁ cl₂ with
  | nil => simp [runPlatforms]
  | cons p rest ih =>
    cases p with
    | cloudflare =>
      have h1 : (syncPlatform .cloudflare cl₁ s d).result.platform = .cloudflare :=
        syncPlatform_platform _ _ _ _
      have h2 : (syncPlatform .cloudflare cl₂ s d).result.platform = .cloudflare :=
        syncPlatform_platform _ _ _ _
      simp only [runPlatforms, List.filter_cons, h1, h2]
      simp only [ne_eq, not_true_eq_false, decide_False]
      exact ih _ _ (by rw [syncPlatform_cf_fb, syncPlatform_cf_fb, h])
    | firebase =>
      obtain ⟨hres, hfb⟩ := syncPlatform_fb_congr cl₁ cl₂ s d h
      simp only [runPlatforms, List.filter_cons, hres]
      have ht := ih (syncPlatform .firebase cl₁ s d).clients
        (syncPlatform .firebase cl₂ s d).clients hfb
      rw [ht]
    | other n =>
      simp only [runPlatforms, List.filter_cons, syncPlatform_other_clients]
      have hres : (syncPlatform (.other n) cl₁ s d).result =
          (syncPlatform (.other n) cl₂ s d).result := by simp [syncPlatform]
      rw [hres, ih cl₁ cl₂ h]

lemma runPlatforms_dry (ps : List Platform) (cl : Clients) (s : SecretMap) :
    (runPlatforms ps cl s true).2.2.2 = 0 ∧ (runPlatforms ps cl s true).2.1 = cl := by
  induction ps generalizing cl with
  | nil => simp [runPlatforms]
  | cons p rest ih =>
    obtain ⟨ha, hcl⟩ := syncPlatform_dry p cl s
    constructor
    · simp [runPlatforms, ha, hcl, (ih cl).1]
    · simp [runPlatforms, hcl, (ih cl).2]

lemma lookupSM_isSome_iff (m : SecretMap) (k : String) :
    (lookupSM m k).isSome = true ↔ k ∈ keysOf m := by
  induction m with
  | nil => simp [lookupSM, keysOf]
  | cons p t ih =>
    obtain ⟨a, b⟩ := p
    by_cases h : k = a
    · subst h
      simp [lookupSM, List.lookup, keysOf]
    · simp only [lookupSM, List.lookup, beq_eq_false_iff_ne.mpr h, keysOf,
        List.map_cons, List.mem_cons] at ih ⊢
      simp [h, ih]

lemma mem_keys_setPair (m : SecretMap) (k v x : String) :
    x ∈ keysOf (FirebaseClient.setPair m k v) ↔ x ∈ keysOf m ∨ x = k := by
  unfold FirebaseClient.setPair
  by_cases h : (lookupSM m k).isSome
  · have hk : k ∈ keysOf m := (lookupSM_isSome_iff m k).mp h
    have hmap : keysOf (m.map fun p => if p.1 = k then (k, v) else p) = keysOf m := by
      simp only [keysOf, List.map_map]
      apply List.map_congr_left
      intro p _
      by_cases hp : p.1 = k
      · simp [hp]
      · simp [hp]
    simp only [h, if_true, hmap]
    constructor
    · exact Or.inl
    · rintro (hx | rfl)
      · exact hx
      · exact hk
  · simp only [h, if_false, Bool.false_eq_true]
    simp [keysOf]

lemma mem_keys_setConfig (s : SecretMap) (m : SecretMap) (x : String) :
    x ∈ keysOf (FirebaseClient.setConfig m s) ↔
      x ∈ keysOf m ∨ x ∈ (keysOf s).map toLowerCase := by
  induction s generalizing m with
  | nil => simp [FirebaseClient.setConfig, keysOf]
  | cons p t ih =>
    simp only [FirebaseClient.setConfig, List.foldl_cons] at ih ⊢
    rw [ih, mem_keys_setPair]
    simp only [keysOf, List.map_cons, List.mem_cons]
    tauto

lemma mem_bulkUpsert (current : List String) (secrets : SecretMap) (k : String) :
    k ∈ CloudflareClient.bulkUpsert current secrets ↔ k ∈ current ∨ k ∈ keysOf secrets := by
  simp only [CloudflareClient.bulkUpsert, List.mem_append, List.mem_filter,
    decide_eq_true_eq]
  tauto

/-! C1: diff partition property. -/

/-- C1 (amended): for CloudflareClient.diff the full partition property
holds: toAdd is exactly the canonical keys absent from the platform,
toRemove exactly the platform keys absent from the canonical map, existing
exactly the co-present keys, the three are pairwise disjoint and their
union covers exactly the union of both key sets. For FirebaseClient.diff
(whose native naming is the lowercased canonical key), toAdd and toRemove
are exactly as stated and the three buckets are pairwise disjoint, but the
union only falls inside the union of both key sets: a key present on both
sides whose value is unchanged lands in no bucket. -/
theorem diff_partition_amended (C Q : SecretMap) (P : List String) (k : String) :
    (k ∈ (CloudflareClient.diff (.ok P) C).toAdd ↔ k ∈ keysOf C ∧ k ∉ P) ∧
    (k ∈ (CloudflareClient.diff (.ok P) C).toRemove ↔ k ∈ P ∧ k ∉ keysOf C) ∧
    (k ∈ (CloudflareClient.diff (.ok P) C).existing ↔ k ∈ keysOf C ∧ k ∈ P) ∧
    ¬ (k ∈ (CloudflareClient.diff (.ok P) C).toAdd ∧
       k ∈ (CloudflareClient.diff (.ok P) C).toRemove) ∧
    ¬ (k ∈ (CloudflareClient.diff (.ok P) C).toAdd ∧
       k ∈ (CloudflareClient.diff (.ok P) C).existing) ∧
    ¬ (k ∈ (CloudflareClient.diff (.ok P) C).existing ∧
       k ∈ (CloudflareClient.diff (.ok P) C).toRemove) ∧
    ((k ∈ (CloudflareClient.diff (.ok P) C).toAdd ∨
      k ∈ (CloudflareClient.diff (.ok P) C).existing ∨
      k ∈ (CloudflareClient.diff (.ok P) C).toRemove) ↔ (k ∈ keysOf C ∨ k ∈ P)) ∧
    (k ∈ (FirebaseClient.diff (.ok Q) C).toAdd ↔
      k ∈ (keysOf C).map toLowerCase ∧ k ∉ keysOf Q) ∧
    (k ∈ (FirebaseClient.diff (.ok Q) C).toRemove ↔
      k ∈ keysOf Q ∧ k ∉ (keysOf C).map toLowerCase) ∧
    ¬ (k ∈ (FirebaseClient.diff (.ok Q) C).toAdd ∧
       k ∈ (FirebaseClient.diff (.ok Q) C).toRemove) ∧
    ¬ (k ∈ (FirebaseClient.diff (.ok Q) C).toAdd ∧
       k ∈ (FirebaseClient.diff (.ok Q) C).toUpdate) ∧
    ¬ (k ∈ (FirebaseClient.diff (.ok Q) C).toUpdate ∧
       k ∈ (FirebaseClient.diff (.ok Q) C).toRemove) ∧
    ((k ∈ (FirebaseClient.diff (.ok Q) C).toAdd ∨
      k ∈ (FirebaseClient.diff (.ok Q) C).toUpdate ∨
      k ∈ (FirebaseClient.diff (.ok Q) C).toRemove) →
      (k ∈ (keysOf C).map toLowerCase ∨ k ∈ keysOf Q)) := by
  simp only [CloudflareClient.diff, CloudflareClient.listSecrets,
    FirebaseClient.diff, FirebaseClient.getConfig, List.mem_filter,
    decide_eq_true_eq, Bool.and_eq_true]
  tauto

/-- C1 counterexample: for the canonical map with the single entry
API_KEY = a and a Firebase platform whose doppler namespace holds
api_key = a (same value), all three buckets of diff are empty even though
the key api_key belongs to the union of canonical and platform keys, so
the union of the buckets does not cover the union of the key sets. -/
theorem diff_partition_claim_counterexample :
    (FirebaseClient.diff (.ok [("api_key", "a")]) [("API_KEY", "a")]).toAdd = [] ∧
    (FirebaseClient.diff (.ok [("api_key", "a")]) [("API_KEY", "a")]).toUpdate = [] ∧
    (FirebaseClient.diff (.ok [("api_key", "a")]) [("API_KEY", "a")]).toRemove = [] ∧
    "api_key" ∈ keysOf [("api_key", "a")] := by
  refine ⟨by decide, by decide, by decide, by decide⟩

/-! C2: apply convergence. -/

/-- C2 (amended): after a successful apply, an immediately-following diff
yields toAdd empty on both platforms. toRemove is empty for Firebase
whenever the unset step succeeded (syncFromDoppler clears the whole
doppler namespace and rewrites it); for Cloudflare, whose syncFromDoppler
performs only a bulk upsert and never deletes, toRemove equals the
pre-existing platform keys absent from the canonical map. -/
theorem apply_convergence_amended (C Q : SecretMap) (P : List String)
    (cfEx setEx : Except String Unit)
    (hcf : (CloudflareClient.syncRun cfEx P C).1 = .ok ())
    (hfb : (FirebaseClient.syncRun (.ok ()) setEx Q C).1 = .ok ()) :
    (CloudflareClient.diff (.ok (CloudflareClient.syncRun cfEx P C).2) C).toAdd = [] ∧
    (CloudflareClient.diff (.ok (CloudflareClient.syncRun cfEx P C).2) C).toRemove =
      P.filter (fun k => decide (k ∉ keysOf C)) ∧
    (FirebaseClient.diff (.ok (FirebaseClient.syncRun (.ok ()) setEx Q C).2) C).toAdd = [] ∧
    (FirebaseClient.diff (.ok (FirebaseClient.syncRun (.ok ()) setEx Q C).2) C).toRemove = [] := by
  cases cfEx with
  | error e => simp [CloudflareClient.syncRun] at hcf
  | ok u =>
    cases setEx with
    | error e => simp [FirebaseClient.syncRun] at hfb
    | ok u2 =>
      refine ⟨?_, ?_, ?_, ?_⟩
      · simp only [CloudflareClient.syncRun, CloudflareClient.diff,
          CloudflareClient.listSecrets]
        rw [List.filter_eq_nil_iff]
        intro k hk
        simp only [decide_eq_true_eq, Decidable.not_not]
        exact (mem_bulkUpsert P C k).mpr (Or.inr hk)
      · simp only [CloudflareClient.syncRun, CloudflareClient.diff,
          CloudflareClient.listSecrets, CloudflareClient.bulkUpsert,
          List.filter_append]
        have h2 : ((keysOf C).filter (fun k => decide (k ∉ P))).filter
            (fun k => decide (k ∉ keysOf C)) = [] := by
          rw [List.filter_eq_nil_iff]
          intro k hk
          simp only [List.mem_filter, decide_eq_true_eq] at hk
          simp [hk.1]
        rw [h2, List.append_nil]
      · simp only [FirebaseClient.syncRun, FirebaseClient.diff,
          FirebaseClient.getConfig]
        rw [List.filter_eq_nil_iff]
        intro k hk
        simp only [decide_eq_true_eq, Decidable.not_not]
        exact (mem_keys_setConfig C [] k).mpr (Or.inr hk)
      · simp only [FirebaseClient.syncRun, FirebaseClient.diff,
          FirebaseClient.getConfig]
        rw [List.filter_eq_nil_iff]
        intro k hk
        rw [mem_keys_setConfig] at hk
        simp only [keysOf, List.map_nil, List.not_mem_nil, false_or,
          List.mem_map] at hk
        obtain ⟨x, hx, rfl⟩ := hk
        simp only [decide_eq_true_eq, Decidable.not_not, List.mem_map, keysOf]
        intro hcon
        exact hcon ⟨x, hx, rfl⟩

/-- Witness for the amended C2 at a concrete input. -/
theorem apply_convergence_amended_witness :
    (CloudflareClient.diff
      (.ok (CloudflareClient.syncRun (.ok ()) ["A"] [("A", "1")]).2) [("A", "1")]).toAdd = [] ∧
    (CloudflareClient.diff
      (.ok (CloudflareClient.syncRun (.ok ()) ["A"] [("A", "1")]).2) [("A", "1")]).toRemove =
      (["A"].filter (fun k => decide (k ∉ keysOf [("A", "1")]))) ∧
    (FirebaseClient.diff
      (.ok (FirebaseClient.syncRun (.ok ()) (.ok ()) [] [("A", "1")]).2) [("A", "1")]).toAdd = [] ∧
    (FirebaseClient.diff
      (.ok (FirebaseClient.syncRun (.ok ()) (.ok ()) [] [("A", "1")]).2) [("A", "1")]).toRemove = [] :=
  apply_convergence_amended [("A", "1")] [] ["A"] (.ok ()) (.ok ()) rfl rfl

/-! C3: partial-failure isolation, C4: dry-run no-op, C5: fetch abort. -/

/-- C3: the engine returns one SyncResult per listed platform, in order,
and for either platform k whose configured connection always throws on
apply (firebase with a failing set call, or cloudflare with a failing bulk
call), every entry of platform k is marked success = false carrying that
error message, while the entries of all other platforms are the same as
in a run whose k connection is replaced by an arbitrary other one — a
failing platform never prevents or changes the processing of the
remaining platforms. -/
theorem sync_partial_failure_isolation (secrets : SecretMap)
    (filter : Option Platform) (cl : Clients) (f f2 : FbConn) (c c2 : CfConn)
    (mf mc : String) :
    (runSyncCommand (.ok secrets) filter cl false).1 =
      .ok (runPlatforms (platformsToSync filter cl) cl secrets false).1 ∧
    (runPlatforms (platformsToSync filter cl) cl secrets false).1.map
        (fun r => r.platform) = platformsToSync filter cl ∧
    (cl.firebase = some f → f.setExec = .error mf →
      (∀ r ∈ (runPlatforms (platformsToSync filter cl) cl secrets false).1,
        r.platform = .firebase → r.success = false ∧ r.error = some mf) ∧
      platformsToSync filter { cl with firebase := some f2 } =
        platformsToSync filter cl ∧
      (runPlatforms (platformsToSync filter cl) cl secrets false).1.filter
          (fun r => decide (r.platform ≠ .firebase)) =
        (runPlatforms (platformsToSync filter cl) { cl with firebase := some f2 }
            secrets false).1.filter (fun r => decide (r.platform ≠ .firebase))) ∧
    (cl.cloudflare = some c → c.bulkExec = .error mc →
      (∀ r ∈ (runPlatforms (platformsToSync filter cl) cl secrets false).1,
        r.platform = .cloudflare → r.success = false ∧ r.error = some mc) ∧
      platformsToSync filter { cl with cloudflare := some c2 } =
        platformsToSync filter cl ∧
      (runPlatforms (platformsToSync filter cl) cl secrets false).1.filter
          (fun r => decide (r.platform ≠ .cloudflare)) =
        (runPlatforms (platformsToSync filter cl) { cl with cloudflare := some c2 }
            secrets false).1.filter (fun r => decide (r.platform ≠ .cloudflare))) := by
  refine ⟨rfl, runPlatforms_platform_map _ _ _ _, ?_, ?_⟩
  · intro hfb hm
    refine ⟨runPlatforms_fb_error _ _ _ _ ⟨f, hfb, hm⟩, ?_,
      runPlatforms_fb_independent _ _ _ _ _ rfl⟩
    cases filter with
    | some p => rfl
    | none => simp [platformsToSync, hfb]
  · intro hcf hm
    refine ⟨runPlatforms_cf_error _ _ _ _ ⟨c, hcf, hm⟩, ?_,
      runPlatforms_cf_independent _ _ _ _ _ rfl⟩
    cases filter with
    | some p => rfl
    | none => simp [platformsToSync, hcf]

/-- Witness for C3 at a concrete run: firebase and cloudflare both
configured, the firebase apply always throws with message fboom and the
cloudflare apply with message cboom; both implication hypotheses are
discharged at this input. -/
theorem sync_partial_failure_isolation_witness :
    (runSyncCommand (.ok [("A", "1")]) none
      (⟨some ⟨[], true, .ok (), .error "fboom"⟩, some ⟨[], true, .error "cboom"⟩⟩ : Clients) false).1 =
      .ok (runPlatforms (platformsToSync none
        (⟨some ⟨[], true, .ok (), .error "fboom"⟩, some ⟨[], true, .error "cboom"⟩⟩ : Clients))
        (⟨some ⟨[], true, .ok (), .error "fboom"⟩, some ⟨[], true, .error "cboom"⟩⟩ : Clients) [("A", "1")] false).1 ∧
    (runPlatforms (platformsToSync none
        (⟨some ⟨[], true, .ok (), .error "fboom"⟩, some ⟨[], true, .error "cboom"⟩⟩ : Clients))
        (⟨some ⟨[], true, .ok (), .error "fboom"⟩, some ⟨[], true, .error "cboom"⟩⟩ : Clients) [("A", "1")] false).1.map (fun r => r.platform) =
      platformsToSync none
        (⟨some ⟨[], true, .ok (), .error "fboom"⟩, some ⟨[], true, .error "cboom"⟩⟩ : Clients) ∧
    ((∀ r ∈ (runPlatforms (platformsToSync none
        (⟨some ⟨[], true, .ok (), .error "fboom"⟩, some ⟨[], true, .error "cboom"⟩⟩ : Clients))
        (⟨some ⟨[], true, .ok (), .error "fboom"⟩, some ⟨[], true, .error "cboom"⟩⟩ : Clients) [("A", "1")] false).1,
      r.platform = .firebase → r.success = false ∧ r.error = some "fboom") ∧
      platformsToSync none
        { (⟨some ⟨[], true, .ok (), .error "fboom"⟩, some ⟨[], true, .error "cboom"⟩⟩ : Clients)
          with firebase := some ⟨[], true, .ok (), .ok ()⟩ } =
        platformsToSync none
        (⟨some ⟨[], true, .ok (), .error "fboom"⟩, some ⟨[], true, .error "cboom"⟩⟩ : Clients) ∧
      (runPlatforms (platformsToSync none
        (⟨some ⟨[], true, .ok (), .error "fboom"⟩, some ⟨[], true, .error "cboom"⟩⟩ : Clients))
        (⟨some ⟨[], true, .ok (), .error "fboom"⟩, some ⟨[], true, .error "cboom"⟩⟩ : Clients) [("A", "1")] false).1.filter (fun r => decide (r.platform ≠ .firebase)) =
        (runPlatforms (platformsToSync none
        (⟨some ⟨[], true, .ok (), .error "fboom"⟩, some ⟨[], true, .error "cboom"⟩⟩ : Clients))
        { (⟨some ⟨[], true, .ok (), .error "fboom"⟩, some ⟨[], true, .error "cboom"⟩⟩ : Clients)
          with firebase := some ⟨[], true, .ok (), .ok ()⟩ } [("A", "1")] false).1.filter (fun r => decide (r.platform ≠ .firebase))) ∧
    ((∀ r ∈ (runPlatforms (platformsToSync none
        (⟨some ⟨[], true, .ok (), .error "fboom"⟩, some ⟨[], true, .error "cboom"⟩⟩ : Clients))
        (⟨some ⟨[], true, .ok (), .error "fboom"⟩, some ⟨[], true, .error "cboom"⟩⟩ : Clients) [("A", "1")] false).1,
      r.platform = .cloudflare → r.success = false ∧ r.error = some "cboom") ∧
      platformsToSync none
        { (⟨some ⟨[], true, .ok (), .error "fboom"⟩, some ⟨[], true, .error "cboom"⟩⟩ : Clients)
          with cloudflare := some ⟨[], true, .ok ()⟩ } =
        platformsToSync none
        (⟨some ⟨[], true, .ok (), .error "fboom"⟩, some ⟨[], true, .error "cboom"⟩⟩ : Clients) ∧
      (runPlatforms (platformsToSync none
        (⟨some ⟨[], true, .ok (), .error "fboom"⟩, some ⟨[], true, .error "cboom"⟩⟩ : Clients))
        (⟨some ⟨[], true, .ok (), .error "fboom"⟩, some ⟨[], true, .error "cboom"⟩⟩ : Clients) [("A", "1")] false).1.filter (fun r => decide (r.platform ≠ .cloudflare)) =
        (runPlatforms (platformsToSync none
        (⟨some ⟨[], true, .ok (), .error "fboom"⟩, some ⟨[], true, .error "cboom"⟩⟩ : Clients))
        { (⟨some ⟨[], true, .ok (), .error "fboom"⟩, some ⟨[], true, .error "cboom"⟩⟩ : Clients)
          with cloudflare := some ⟨[], true, .ok ()⟩ } [("A", "1")] false).1.filter (fun r => decide (r.platform ≠ .cloudflare))) := by
  have T := sync_partial_failure_isolation [("A", "1")] none
    (⟨some ⟨[], true, .ok (), .error "fboom"⟩, some ⟨[], true, .error "cboom"⟩⟩ : Clients)
    ⟨[], true, .ok (), .error "fboom"⟩ ⟨[], true, .ok (), .ok ()⟩
    ⟨[], true, .error "cboom"⟩ ⟨[], true, .ok ()⟩ "fboom" "cboom"
  exact ⟨T.1, T.2.1, T.2.2.1 rfl rfl, T.2.2.2 rfl rfl⟩

/-- C4: with dryRun true the engine performs zero apply invocations and
leaves every platform state unchanged, the run still succeeds with its
result list, and the platform and added / updated / removed fields of
every SyncResult are exactly those of the same run with dryRun false. -/
theorem dry_run_no_op (secrets : SecretMap) (filter : Option Platform) (cl : Clients) :
    (runPlatforms (platformsToSync filter cl) cl secrets true).2.2.2 = 0 ∧
    (runPlatforms (platformsToSync filter cl) cl secrets true).2.1 = cl ∧
    (runSyncCommand (.ok secrets) filter cl true).1 =
      .ok (runPlatforms (platformsToSync filter cl) cl secrets true).1 ∧
    (runPlatforms (platformsToSync filter cl) cl secrets true).1.map countsOf =
      (runPlatforms (platformsToSync filter cl) cl secrets false).1.map countsOf := by
  refine ⟨(runPlatforms_dry _ _ _).1, (runPlatforms_dry _ _ _).2, rfl, ?_⟩
  cases filter with
  | some p =>
    simp only [platformsToSync, runPlatforms, List.map_cons, List.map_nil]
    rw [syncPlatform_counts]
  | none =>
    cases hfb : cl.firebase with
    | none =>
      cases hcf : cl.cloudflare with
      | none => simp [platformsToSync, hfb, hcf, runPlatforms]
      | some c =>
        simp only [platformsToSync, hfb, hcf, List.nil_append, runPlatforms,
          List.map_cons, List.map_nil]
        rw [syncPlatform_counts]
    | some fc =>
      cases hcf : cl.cloudflare with
      | none =>
        simp only [platformsToSync, hfb, hcf, List.append_nil, runPlatforms,
          List.map_cons, List.map_nil]
        rw [syncPlatform_counts]
      | some c =>
        simp only [platformsToSync, hfb, hcf, List.cons_append, List.nil_append,
          runPlatforms, List.map_cons, List.map_nil]
        rw [syncPlatform_counts .firebase cl secrets,
          (syncPlatform_dry .firebase cl secrets).2]
        have hcfc : cl.cloudflare =
            (syncPlatform .firebase cl secrets false).clients.cloudflare :=
          (syncPlatform_fb_cf cl secrets false).symm
        rw [← (syncPlatform_cf_congr cl (syncPlatform .firebase cl secrets false).clients
            secrets false hcfc).1]
        rw [syncPlatform_counts .cloudflare cl secrets]

/-- C5: when the canonical fetch from Doppler fails, the run returns that
single error, every platform state is untouched, and zero diff and zero
apply invocations are performed on any platform client. -/
theorem fetch_failure_aborts_run (e : String) (filter : Option Platform)
    (cl : Clients) (dryRun : Bool) :
    runSyncCommand (.error e) filter cl dryRun = (.error e, cl, 0, 0) := rfl

/-- C2 counterexample: canonical map with the single entry A = 1 against a
Cloudflare worker currently holding the secret OBSOLETE. The bulk apply
succeeds, yet the immediately-following diff reports OBSOLETE in toRemove,
because syncFromDoppler never deletes platform keys absent from the
canonical map. -/
theorem apply_convergence_claim_counterexample :
    (CloudflareClient.syncRun (.ok ()) ["OBSOLETE"] [("A", "1")]).1 = .ok () ∧
    (CloudflareClient.diff
      (.ok (CloudflareClient.syncRun (.ok ()) ["OBSOLETE"] [("A", "1")]).2)
      [("A", "1")]).toRemove = ["OBSOLETE"] := by
  refine ⟨rfl, by decide⟩

/-! C6: listCurrent on an empty platform and under network failure. -/

/-- C6 (amended): CloudflareClient.listSecrets and FirebaseClient.getConfig
are total: with zero secrets configured they return the empty collection,
and on ANY failure of the underlying CLI call — including a transient
network failure — they also return the empty collection instead of
raising any error; no PlatformUnreachable error kind exists in the code. -/
theorem list_current_amended (names : List String) (cfg : SecretMap) (e : String) :
    CloudflareClient.listSecrets (.ok names) = names ∧
    CloudflareClient.listSecrets (.error e) = [] ∧
    FirebaseClient.getConfig (.ok cfg) = cfg ∧
    FirebaseClient.getConfig (.error e) = [] :=
  ⟨rfl, rfl, rfl, rfl⟩

/-- C6 counterexample: when the wrangler or firebase subprocess throws a
network error, listSecrets and getConfig return the empty collection — the
outcome for a platform with zero secrets — rather than failing with a
PlatformUnreachable error; no error can escape these functions at all. -/
theorem list_current_claim_counterexample :
    CloudflareClient.listSecrets (.error "connect ETIMEDOUT") = [] ∧
    FirebaseClient.getConfig (.error "connect ETIMEDOUT") = [] :=
  ⟨rfl, rfl⟩

/-! Cache lemmas. -/

lemma lookup_cacheSet_self (st : CacheState) (p c : String) (s : SecretMap)
    (ttl now : Nat) :
    List.lookup (cacheKey p c) (cacheSet st p c s ttl now) =
      some ⟨s, now + ttl * 1000, false⟩ := by
  simp [cacheSet, List.lookup]

lemma lookup_cacheSetRefreshing_self (st : CacheState) (p c : String) (b : Bool) :
    List.lookup (cacheKey p c) (cacheSetRefreshing st p c b) =
      (List.lookup (cacheKey p c) st).map (fun e => { e with refreshing := b }) := by
  induction st with
  | nil => rfl
  | cons q t ih =>
    obtain ⟨k, ent⟩ := q
    by_cases h : k = cacheKey p c
    · subst h
      simp only [cacheSetRefreshing, List.map_cons] at ih ⊢
      simp [List.lookup]
    · have hb : (cacheKey p c == k) = false :=
        beq_eq_false_iff_ne.mpr (fun hh => h hh.symm)
      simp only [cacheSetRefreshing, List.map_cons] at ih ⊢
      rw [if_neg h]
      simp [List.lookup, hb, ih]

lemma getSecretsM_fetched_of_miss (cfg : RtConfig) (fetch : Except String SecretMap)
    (env : SecretMap) (st : CacheState) (now : Nat) (hsrc : cfg.sourceEnv = false)
    (hmiss : (if 0 < cfg.ttlOpt.getD 300 then
        cacheGet st now cfg.project cfg.configName else none) = none) :
    (getSecretsM cfg fetch env st now).2.2 = true := by
  cases fetch with
  | ok s => simp [getSecretsM, hsrc, hmiss]
  | error e =>
    cases hgs : cacheGetStale st cfg.project cfg.configName with
    | some s => simp [getSecretsM, hsrc, hmiss, hgs]
    | none =>
      by_cases hf : cfg.fallbackEnv <;> simp [getSecretsM, hsrc, hmiss, hgs, hf]

/-! C7: cache TTL. -/

/-- C7: with source doppler and a positive TTL of t seconds, a first
getSecrets call at time n0 that misses the cache performs the provider
fetch and stores the result; a second call at any time n1 at or before the
stored expiresAt = n0 + 1000 t performs no provider fetch and is served
the cached SecretMap; a call at any time n2 past expiresAt performs a
second provider fetch. -/
theorem cache_ttl_single_fetch (cfg : RtConfig) (t : Nat) (S env : SecretMap)
    (st0 : CacheState) (n0 n1 n2 : Nat) (f2 f3 : Except String SecretMap)
    (hsrc : cfg.sourceEnv = false) (httl : cfg.ttlOpt = some t) (ht : 0 < t)
    (hmiss : cacheGet st0 n0 cfg.project cfg.configName = none)
    (h1 : n1 ≤ n0 + t * 1000) (h2 : n0 + t * 1000 < n2) :
    (getSecretsM cfg (.ok S) env st0 n0).2.2 = true ∧
    (getSecretsM cfg f2 env (getSecretsM cfg (.ok S) env st0 n0).2.1 n1).2.2 = false ∧
    (getSecretsM cfg f2 env (getSecretsM cfg (.ok S) env st0 n0).2.1 n1).1 =
      .ok (maybeFilter cfg.keys S) ∧
    (getSecretsM cfg f3 env (getSecretsM cfg (.ok S) env st0 n0).2.1 n2).2.2 = true := by
  have hst1 : (getSecretsM cfg (.ok S) env st0 n0).2.1 =
      cacheSet st0 cfg.project cfg.configName S t n0 := by
    simp [getSecretsM, hsrc, httl, ht, hmiss]
  have hlook := lookup_cacheSet_self st0 cfg.project cfg.configName S t n0
  have hhit1 : cacheGet (cacheSet st0 cfg.project cfg.configName S t n0) n1
      cfg.project cfg.configName = some S := by
    simp [cacheGet, hlook, Nat.not_lt.mpr h1]
  have hhit2 : cacheGet (cacheSet st0 cfg.project cfg.configName S t n0) n2
      cfg.project cfg.configName = none := by
    simp [cacheGet, hlook, h2]
  refine ⟨?_, ?_, ?_, ?_⟩
  · simp [getSecretsM, hsrc, httl, ht, hmiss]
  · rw [hst1]; simp [getSecretsM, hsrc, httl, ht, hhit1]
  · rw [hst1]; simp [getSecretsM, hsrc, httl, ht, hhit1]
  · rw [hst1]
    exact getSecretsM_fetched_of_miss cfg f3 env _ n2 hsrc (by simp [httl, ht, hhit2])

/-- Witness for C7 at a concrete run with TTL 300 seconds. -/
theorem cache_ttl_single_fetch_witness :
    (getSecretsM ⟨false, some 300, [], "p", "c", true⟩ (.ok [("A", "1")]) [] [] 0).2.2 = true ∧
    (getSecretsM ⟨false, some 300, [], "p", "c", true⟩ (.error "boom") []
      (getSecretsM ⟨false, some 300, [], "p", "c", true⟩ (.ok [("A", "1")]) [] [] 0).2.1
      1000).2.2 = false ∧
    (getSecretsM ⟨false, some 300, [], "p", "c", true⟩ (.error "boom") []
      (getSecretsM ⟨false, some 300, [], "p", "c", true⟩ (.ok [("A", "1")]) [] [] 0).2.1
      1000).1 = .ok (maybeFilter [] [("A", "1")]) ∧
    (getSecretsM ⟨false, some 300, [], "p", "c", true⟩ (.error "boom") []
      (getSecretsM ⟨false, some 300, [], "p", "c", true⟩ (.ok [("A", "1")]) [] [] 0).2.1
      300001).2.2 = true :=
  cache_ttl_single_fetch ⟨false, some 300, [], "p", "c", true⟩ 300 [("A", "1")] []
    [] 0 1000 300001 (.error "boom") (.error "boom") rfl rfl (by decide) rfl
    (by decide) (by decide)

/-! C8: stale fallback. -/

/-- C8: source doppler, a cache entry exists for the key from an earlier
successful fetch and its TTL has expired; when the provider fetch of a
later getSecrets call fails, the call returns the previously cached
SecretMap (filtered to the requested keys) instead of raising the fetch
error, and the cache is left unchanged. -/
theorem stale_fallback_returns_cached (cfg : RtConfig) (msg : String)
    (e : CacheEntry) (st : CacheState) (env : SecretMap) (now : Nat)
    (hsrc : cfg.sourceEnv = false)
    (hent : List.lookup (cacheKey cfg.project cfg.configName) st = some e)
    (hexp : e.expiresAt < now) :
    (getSecretsM cfg (.error msg) env st now).1 = .ok (maybeFilter cfg.keys e.secrets) ∧
    (getSecretsM cfg (.error msg) env st now).2.1 = st := by
  have hmiss : (if 0 < cfg.ttlOpt.getD 300 then
      cacheGet st now cfg.project cfg.configName else none) = none := by
    by_cases hlt : 0 < cfg.ttlOpt.getD 300
    · simp [hlt, cacheGet, hent, hexp]
    · simp [hlt]
  have hgs : cacheGetStale st cfg.project cfg.configName = some e.secrets := by
    simp [cacheGetStale, hent]
  constructor <;> simp [getSecretsM, hsrc, hmiss, hgs]

/-- Witness for C8 at a concrete expired entry. -/
theorem stale_fallback_returns_cached_witness :
    (getSecretsM ⟨false, some 300, [], "p", "c", true⟩ (.error "boom") []
      [("p:c", ⟨[("A", "1")], 0, false⟩)] 1).1 =
      .ok (maybeFilter [] [("A", "1")]) ∧
    (getSecretsM ⟨false, some 300, [], "p", "c", true⟩ (.error "boom") []
      [("p:c", ⟨[("A", "1")], 0, false⟩)] 1).2.1 =
      [("p:c", ⟨[("A", "1")], 0, false⟩)] :=
  stale_fallback_returns_cached ⟨false, some 300, [], "p", "c", true⟩ "boom"
    ⟨[("A", "1")], 0, false⟩ [("p:c", ⟨[("A", "1")], 0, false⟩)] [] 1 rfl rfl
    (by decide)

/-! C9: single-flight refreshing flag. -/

/-- C9 (amended): setRefreshing only mutates an entry that already exists.
Whenever the cache already holds an entry for the key that is not marked
refreshing, refreshSecretsBackground sets the refreshing flag before its
fetch begins, a second refreshSecretsBackground issued while the first is
in flight starts no additional provider fetch and leaves the cache
unchanged, and the flag is cleared on both completion paths of the first
refresh. When no entry exists for the key the flag write is a no-op and
the deduplication fails. -/
theorem refresh_single_flight_amended (st : CacheState) (p c : String)
    (e : CacheEntry) (outcome : Except String SecretMap) (ttl now : Nat)
    (hent : List.lookup (cacheKey p c) st = some e)
    (hflag : e.refreshing = false) :
    (refreshBegin st p c).2 = true ∧
    cacheIsRefreshing (refreshBegin st p c).1 p c = true ∧
    (refreshBegin (refreshBegin st p c).1 p c).2 = false ∧
    (refreshBegin (refreshBegin st p c).1 p c).1 = (refreshBegin st p c).1 ∧
    cacheIsRefreshing (refreshFinish (refreshBegin st p c).1 p c outcome ttl now)
      p c = false := by
  have h0 : cacheIsRefreshing st p c = false := by
    simp [cacheIsRefreshing, hent, hflag]
  have hb : refreshBegin st p c = (cacheSetRefreshing st p c true, true) := by
    simp [refreshBegin, h0]
  have h1 : List.lookup (cacheKey p c) (cacheSetRefreshing st p c true) =
      some { e with refreshing := true } := by
    rw [lookup_cacheSetRefreshing_self, hent]; rfl
  have hr1 : cacheIsRefreshing (cacheSetRefreshing st p c true) p c = true := by
    simp [cacheIsRefreshing, h1]
  refine ⟨by rw [hb], by rw [hb]; exact hr1, ?_, ?_, ?_⟩
  · rw [hb]; simp [refreshBegin, hr1]
  · rw [hb]; simp [refreshBegin, hr1]
  · rw [hb]
    cases outcome with
    | ok s =>
      simp [refreshFinish, cacheIsRefreshing, lookup_cacheSetRefreshing_self,
        lookup_cacheSet_self]
    | error e2 =>
      simp [refreshFinish, cacheIsRefreshing, lookup_cacheSetRefreshing_self, h1]

/-- Witness for the amended C9 at a concrete cache holding one entry. -/
theorem refresh_single_flight_amended_witness :
    (refreshBegin [("p:c", ⟨[("A", "1")], 0, false⟩)] "p" "c").2 = true ∧
    cacheIsRefreshing (refreshBegin [("p:c", ⟨[("A", "1")], 0, false⟩)] "p" "c").1
      "p" "c" = true ∧
    (refreshBegin (refreshBegin [("p:c", ⟨[("A", "1")], 0, false⟩)] "p" "c").1
      "p" "c").2 = false ∧
    (refreshBegin (refreshBegin [("p:c", ⟨[("A", "1")], 0, false⟩)] "p" "c").1
      "p" "c").1 = (refreshBegin [("p:c", ⟨[("A", "1")], 0, false⟩)] "p" "c").1 ∧
    cacheIsRefreshing
      (refreshFinish (refreshBegin [("p:c", ⟨[("A", "1")], 0, false⟩)] "p" "c").1
        "p" "c" (.error "boom") 300 5) "p" "c" = false :=
  refresh_single_flight_amended [("p:c", ⟨[("A", "1")], 0, false⟩)] "p" "c"
    ⟨[("A", "1")], 0, false⟩ (.error "boom") 300 5 rfl rfl

/-- C9 counterexample: with an empty cache (no entry for the key), the
first refreshSecretsBackground starts a fetch but the refreshing flag is
not set (setRefreshing is a no-op without an entry), so a second
refreshSecretsBackground issued while the first is still in flight starts
a second provider fetch. -/
theorem refresh_single_flight_claim_counterexample :
    (refreshBegin ([] : CacheState) "p" "c").2 = true ∧
    cacheIsRefreshing (refreshBegin ([] : CacheState) "p" "c").1 "p" "c" = false ∧
    (refreshBegin (refreshBegin ([] : CacheState) "p" "c").1 "p" "c").2 = true :=
  ⟨rfl, rfl, rfl⟩

/-! C10: key filtering of getSecrets. -/

lemma fetchFromEnv_eq_filterKeys (env : SecretMap) (ks : List String) (h : ks ≠ []) :
    fetchFromEnv env ks = filterKeys env ks := by
  simp [fetchFromEnv, filterKeys, List.isEmpty_iff, h]

lemma lookupSM_filterKeys (s : SecretMap) (ks : List String) (k : String) :
    lookupSM (filterKeys s ks) k = if k ∈ ks then lookupSM s k else none := by
  induction ks with
  | nil => simp [filterKeys, lookupSM]
  | cons a t ih =>
    by_cases hk : k = a
    · subst hk
      cases hv : lookupSM s k with
      | some v =>
        simp only [filterKeys, List.filterMap_cons, hv, Option.map_some]
        simp [lookupSM, List.lookup, List.mem_cons]
      | none =>
        simp only [filterKeys, List.filterMap_cons, hv, Option.map_none', Option.map_none]
        simp only [filterKeys] at ih
        rw [ih]
        by_cases hm : k ∈ t <;> simp [hm, hv]
    · cases hv : lookupSM s a with
      | some v =>
        simp only [filterKeys, List.filterMap_cons, hv, Option.map_some]
        simp only [filterKeys] at ih
        simp only [lookupSM, List.lookup, beq_eq_false_iff_ne.mpr hk]
        simp only [lookupSM] at ih
        rw [ih]
        simp [List.mem_cons, hk]
      | none =>
        simp only [filterKeys, List.filterMap_cons, hv, Option.map_none', Option.map_none]
        simp only [filterKeys] at ih
        rw [ih]
        simp [List.mem_cons, hk]

/-- C10: whenever a getSecrets call with a non-empty keys list succeeds,
its result is the filterKeys image of the resolved source map — the fresh
fetch, the non-expired cache entry, the stale cache entry, or the process
environment — so the result binds exactly the requested keys present in
that source, each to the value of that source; requested keys absent from
the source are silently omitted and non-requested keys never appear. -/
theorem get_secrets_requested_keys (cfg : RtConfig) (fetch : Except String SecretMap)
    (env : SecretMap) (st : CacheState) (now : Nat) (out : SecretMap)
    (hke : cfg.keys ≠ [])
    (hok : (getSecretsM cfg fetch env st now).1 = .ok out) :
    ∃ src, out = filterKeys src cfg.keys ∧
      (fetch = .ok src ∨
       cacheGet st now cfg.project cfg.configName = some src ∨
       cacheGetStale st cfg.project cfg.configName = some src ∨
       src = env) ∧
      ∀ k, lookupSM out k = if k ∈ cfg.keys then lookupSM src k else none := by
  have hmf : ∀ s : SecretMap, maybeFilter cfg.keys s = filterKeys s cfg.keys := by
    intro s
    simp [maybeFilter, List.isEmpty_iff, hke]
  by_cases hsrc : cfg.sourceEnv
  · simp only [getSecretsM, hsrc, if_true] at hok
    have hout : out = filterKeys env cfg.keys := by
      rw [← fetchFromEnv_eq_filterKeys env cfg.keys hke]
      exact (Except.ok.inj hok).symm
    exact ⟨env, hout, Or.inr (Or.inr (Or.inr rfl)), fun k => by
      rw [hout, lookupSM_filterKeys]⟩
  · have hsrc2 : cfg.sourceEnv = false := by simpa using hsrc
    cases hhit : (if 0 < cfg.ttlOpt.getD 300 then
        cacheGet st now cfg.project cfg.configName else none) with
    | some cached =>
      have hcg : cacheGet st now cfg.project cfg.configName = some cached := by
        by_cases hlt : 0 < cfg.ttlOpt.getD 300
        · simpa [hlt] using hhit
        · simp [hlt] at hhit
      simp only [getSecretsM, hsrc2, Bool.false_eq_true, if_false, hhit] at hok
      have hout : out = filterKeys cached cfg.keys := by
        rw [← hmf]
        exact (Except.ok.inj hok).symm
      exact ⟨cached, hout, Or.inr (Or.inl hcg), fun k => by
        rw [hout, lookupSM_filterKeys]⟩
    | none =>
      cases fetch with
      | ok s =>
        simp only [getSecretsM, hsrc2, Bool.false_eq_true, if_false, hhit] at hok
        have hout : out = filterKeys s cfg.keys := by
          rw [← hmf]
          exact (Except.ok.inj hok).symm
        exact ⟨s, hout, Or.inl rfl, fun k => by
          rw [hout, lookupSM_filterKeys]⟩
      | error e =>
        cases hgs : cacheGetStale st cfg.project cfg.configName with
        | some stale =>
          simp only [getSecretsM, hsrc2, Bool.false_eq_true, if_false, hhit, hgs] at hok
          have hout : out = filterKeys stale cfg.keys := by
            rw [← hmf]
            exact (Except.ok.inj hok).symm
          exact ⟨stale, hout, Or.inr (Or.inr (Or.inl rfl)), fun k => by
            rw [hout, lookupSM_filterKeys]⟩
        | none =>
          by_cases hf : cfg.fallbackEnv
          · simp only [getSecretsM, hsrc2, Bool.false_eq_true, if_false, hhit, hgs,
              hf, if_true] at hok
            have hout : out = filterKeys env cfg.keys := by
              rw [← fetchFromEnv_eq_filterKeys env cfg.keys hke]
              exact (Except.ok.inj hok).symm
            exact ⟨env, hout, Or.inr (Or.inr (Or.inr rfl)), fun k => by
              rw [hout, lookupSM_filterKeys]⟩
          · have hf2 : cfg.fallbackEnv = false := by simpa using hf
            simp [getSecretsM, hsrc2, hhit, hgs, hf2] at hok

/-- Witness for C10 at a concrete call requesting the single key A. -/
theorem get_secrets_requested_keys_witness :
    ∃ src, ([("A", "1")] : SecretMap) = filterKeys src ["A"] ∧
      ((.ok [("A", "1"), ("B", "2")] : Except String SecretMap) = .ok src ∨
       cacheGet [] 0 "p" "c" = some src ∨
       cacheGetStale [] "p" "c" = some src ∨
       src = []) ∧
      ∀ k, lookupSM ([("A", "1")] : SecretMap) k =
        if k ∈ ["A"] then lookupSM src k else none :=
  get_secrets_requested_keys ⟨false, some 300, ["A"], "p", "c", true⟩
    (.ok [("A", "1"), ("B", "2")]) [] [] 0 [("A", "1")] (by decide) rfl

end DCS
